import Mathlib

/-!
# Verification of libgit2 worktree management (src/libgit2/worktree.c)

A shallow embedding of the worktree module.  The filesystem is modelled as an
association list from path strings to entries (regular files with string
content, or directories).  Path utilities (`git_fs_path_*`) and buffered file
I/O are external collaborators of the module (spec §6); they are modelled from
the spec's contracts.  The worktree functions themselves are translated
directly from `worktree.c`.
-/

set_option autoImplicit false

deriving instance DecidableEq for Except

namespace WorktreeSpec

/-! ## Path string helpers

Modelled from the spec: §6 lists "join, basename, dirname,
make-relative-to-absolute, existence check, empty-directory check, directory
listing" as path-utility collaborators consumed by the module.  All helpers
work on `String.data` character lists so that concrete instances reduce. -/

/-- Modelled from the spec: whitespace as trimmed by the buffer rtrim
collaborator (space, tab, newline, carriage return, vertical tab, form feed). -/
def isSpaceChar (c : Char) : Bool :=
  c = ' ' || c = '\t' || c = '\n' || c = '\r' || c.toNat = 11 || c.toNat = 12

/-- Modelled from the spec: "trims trailing whitespace" (§4.1). -/
def rtrim (s : String) : String :=
  String.mk ((s.data.reverse.dropWhile isSpaceChar).reverse)

/-- Does the path end with a directory separator? -/
def endsWithSlash (p : String) : Bool :=
  p.data.getLast? = some '/'

/-- Modelled from the spec: path join collaborator.  Joins with a single
separator, as `git_str_joinpath` does. -/
def joinpath (a b : String) : String :=
  if endsWithSlash a then a ++ b else a ++ "/" ++ b

/-- Drop one trailing slash, for existence checks on `"dir/"`-shaped paths. -/
def stripSlash (p : String) : String :=
  if endsWithSlash p then String.mk p.data.dropLast else p

/-- Split a path into its non-empty segments. -/
def segsAux : List Char → List Char → List String
  | [], cur => if cur.isEmpty then [] else [String.mk cur.reverse]
  | c :: cs, cur =>
    if c = '/' then
      if cur.isEmpty then segsAux cs [] else String.mk cur.reverse :: segsAux cs []
    else segsAux cs (c :: cur)

def splitSegs (p : String) : List String := segsAux p.data []

/-- Modelled from the spec: "final path-segment (basename)" (§4.3). -/
def basename (p : String) : String :=
  match (splitSegs p).getLast? with
  | some s => s
  | none => p

def joinSegs : List String → String
  | [] => ""
  | [s] => s
  | s :: rest => s ++ "/" ++ joinSegs rest

def isAbsolute (p : String) : Bool :=
  p.data.head? = some '/'

/-- Modelled from the spec: a link-file content that is not an absolute path
"resolves ... as relative to `base`" (§4.1); relative means not absolute. -/
def git_fs_path_is_relative (p : String) : Bool :=
  !isAbsolute p

/-- Apply the segments of a relative path to a base segment list, resolving
`..` and `.` (the normalization performed by `git_fs_path_apply_relative`). -/
def applyRelativeSegs : List String → List String → List String
  | base, [] => base
  | base, s :: rest =>
    if s = ".." then applyRelativeSegs base.dropLast rest
    else if s = "." then applyRelativeSegs base rest
    else applyRelativeSegs (base ++ [s]) rest

/-- Modelled from the spec: resolve a relative path against a base and return
the normalized path (`git_fs_path_apply_relative`). -/
def applyRelative (base rel : String) : String :=
  (if isAbsolute base then "/" else "")
    ++ joinSegs (applyRelativeSegs (splitSegs base) (splitSegs rel))

/-- Modelled from the spec: dirname — the path without its final segment
(`git_fs_path_dirname`). -/
def dirname (p : String) : String :=
  (if isAbsolute p then "/" else "")
    ++ joinSegs (splitSegs p).dropLast

/-! ## Filesystem model

An association list from absolute path strings to entries.  Lookup returns the
first binding; `setPath` overwrites; listing a directory enumerates bindings
in list order (directory-enumeration order is implementation-defined, spec
§4.3 — the model fixes one order, with entries listed oldest-first). -/

inductive FsEntry where
  | file (content : String)
  | dir
deriving DecidableEq, Repr

abbrev FS := List (String × FsEntry)

def lookupPath : FS → String → Option FsEntry
  | [], _ => none
  | (k, e) :: rest, p => if k = p then some e else lookupPath rest p

/-- Modelled from the spec: existence check collaborator (`git_fs_path_exists`,
a stat: true for files and directories). -/
def pathExists (fs : FS) (p : String) : Bool :=
  (lookupPath fs p).isSome

def isFile (fs : FS) (p : String) : Bool :=
  match lookupPath fs p with
  | some (.file _) => true
  | _ => false

/-- Read a whole file into a buffer (`git_futils_readbuffer`); fails when the
path is missing or not a regular file. -/
def readFile (fs : FS) (p : String) : Option String :=
  match lookupPath fs p with
  | some (.file c) => some c
  | _ => none

/-- Overwrite-or-create a path binding. -/
def setPath (fs : FS) (p : String) (e : FsEntry) : FS :=
  fs.filter (fun kv => kv.1 ≠ p) ++ [(p, e)]

/-- Remove exactly one path binding (used to state C1's removal clause). -/
def removePath (fs : FS) (p : String) : FS :=
  fs.filter (fun kv => kv.1 ≠ p)

/-- Recursive removal (`git_futils_rmdir_r` with `REMOVE_FILES`): drops the
path itself and everything below it. -/
def rmdirRec (fs : FS) (p : String) : FS :=
  fs.filter (fun kv => ¬(kv.1 = p ∨ (p ++ "/").data.isPrefixOf kv.1.data))

/-- Modelled from the spec: directory-listing collaborator
(`git_fs_path_dirload` with the base path's length as skipped prefix length:
yields the names of direct children, in enumeration order). `base` is expected
to end with a separator, as at both call sites in `worktree.c`. -/
def dirList (fs : FS) (base : String) : List String :=
  fs.filterMap (fun kv =>
    if base.data.isPrefixOf kv.1.data then
      let rest : List Char := kv.1.data.drop base.data.length
      if rest ≠ [] ∧ ¬ rest.contains '/' then some (String.mk rest) else none
    else none)

/-- Modelled from the spec: empty-directory check collaborator
(`git_fs_path_is_empty_dir`). -/
def isEmptyDir (fs : FS) (base : String) : Bool :=
  (dirList fs base).isEmpty

/-- Modelled from the spec: `git_fs_path_contains_file` — the directory
directly contains the named regular file. -/
def git_fs_path_contains_file (fs : FS) (dir file : String) : Bool :=
  isFile fs (joinpath dir file)

/-! ## The private-directory validator (worktree.c:18-23) -/

/-- `is_worktree_private_directory`: a directory is a valid worktree admin
directory iff it directly contains the regular files `commondir`, `gitdir`
and `HEAD`. -/
def is_worktree_private_directory (fs : FS) (path : String) : Bool :=
  git_fs_path_contains_file fs path "commondir"
    && git_fs_path_contains_file fs path "gitdir"
    && git_fs_path_contains_file fs path "HEAD"

/-! ## The worktree entity and the link resolver -/

/-- The in-memory `git_worktree` value object (worktree.h / spec §3). -/
structure Worktree where
  name : String
  gitdir_path : String
  commondir_path : String
  gitlink_path : String
  worktree_path : String
  parent_path : Option String
  locked : Bool
deriving DecidableEq, Repr

/-- The repository handle fields consumed by this module: its common
directory and (optional) working directory. -/
structure Repo where
  commondir : String
  workdir : Option String
deriving DecidableEq, Repr

/-- `git_worktree__read_link` (worktree.c:106-137): read `file` under `base`,
trim trailing whitespace; return the content verbatim when it is not a
relative path, otherwise resolve it against `base`.  `none` models the NULL
return when the file cannot be read. -/
def git_worktree__read_link (fs : FS) (base file : String) : Option String :=
  match readFile fs (joinpath base file) with
  | none => none
  | some content =>
    let buf := rtrim content
    if ¬ git_fs_path_is_relative buf then some buf
    else some (applyRelative base buf)

/-- `get_worktree_gitdir_from_private_directory` (worktree.c:26-49): validate
the admin directory, read its `gitdir` link and strip the final `.git`
component, yielding the worktree's working directory. -/
def get_worktree_gitdir_from_private_directory (fs : FS) (directory : String) :
    Except Int String :=
  if ¬ is_worktree_private_directory fs directory then .error (-1)
  else
    match git_worktree__read_link fs directory "gitdir" with
    | none => .error (-1)
    | some buf => .ok (applyRelative buf "..")

/-! ## Lock state (worktree.c:656-678) -/

/-- `git_worktree__is_locked`: presence of `gitdir_path/locked` is the truth
signal; the reason is the file's verbatim content (empty string when there is
no reason or the worktree is unlocked). -/
def git_worktree__is_locked (fs : FS) (wt : Worktree) : Bool × String :=
  let path := joinpath wt.gitdir_path "locked"
  if pathExists fs path then
    (true, (readFile fs path).getD "")
  else (false, "")

/-! ## Opening a worktree (worktree.c:165-225) -/

/-- `open_worktree_dir`: validate `dir` as a private directory, resolve its
links and build the `Worktree` value.  Path-length validation
(`git_path_validate_length`) always succeeds in the model. -/
def open_worktree_dir (fs : FS) (parent : Option String) (dir name : String) :
    Except Int Worktree :=
  if ¬ is_worktree_private_directory fs dir then .error (-1)
  else
    match git_worktree__read_link fs dir "commondir" with
    | none => .error (-1)
    | some commondir_path =>
      match git_worktree__read_link fs dir "gitdir" with
      | none => .error (-1)
      | some gitlink_path =>
        let wt : Worktree :=
          { name := name
            gitdir_path := dir
            commondir_path := commondir_path
            gitlink_path := gitlink_path
            worktree_path := dirname gitlink_path
            parent_path := parent
            locked := (git_worktree__is_locked fs
              { name := name, gitdir_path := dir,
                commondir_path := commondir_path,
                gitlink_path := gitlink_path,
                worktree_path := dirname gitlink_path,
                parent_path := parent, locked := false }).1 }
        .ok wt

/-! ## The registry scanner: list (worktree.c:51-104) -/

/-- The shared guard of list and lookup (worktree.c:67, 244): the scan is
skipped when `commondir/worktrees/` does not exist or is an empty
directory. -/
def registryMissing (fs : FS) (commondir : String) : Bool :=
  !pathExists fs (stripSlash (joinpath commondir "worktrees/")) ||
    isEmptyDir fs (joinpath commondir "worktrees/")

/-- The `git_vector_foreach` filter loop of `git_worktree_list`, translated
verbatim: the index advances every iteration, and an invalid entry is removed
in place from the vector being iterated.  The fuel argument only drives the
recursion: the loop runs at most `v.length` iterations (the index grows by one
per iteration and the vector never grows), so with the initial vector length
as fuel the exhaustion branch is unreachable. -/
def listLoop (fs : FS) (base : String) : Nat → List String → Nat → Except Int (List String)
  | 0, v, i => if i < v.length then .error (-2) else .ok v
  | fuel + 1, v, i =>
    if h : i < v.length then
      let worktree := v.get ⟨i, h⟩
      if ¬ is_worktree_private_directory fs (base ++ worktree) then
        listLoop fs base fuel (v.eraseIdx i) (i + 1)
      else
        match get_worktree_gitdir_from_private_directory fs (base ++ worktree) with
        | .error e => .error e
        | .ok _ => listLoop fs base fuel v (i + 1)
    else .ok v

/-- `git_worktree_list`: enumerate `commondir/worktrees/`, dropping entries
that fail validation (via the in-place removal loop above). -/
def git_worktree_list (fs : FS) (repo : Repo) : Except Int (List String) :=
  let path := joinpath repo.commondir "worktrees/"
  if registryMissing fs repo.commondir then .ok []
  else listLoop fs path (dirList fs path).length (dirList fs path) 0

/-! ## The registry scanner: lookup (worktree.c:227-293) -/

/-- `nullSuccess` models `git_worktree_lookup` returning 0 (success) while
`*out` is still NULL — the observable outcome of the uninitialized-`found`
read described below when the stack value is nonzero. -/
inductive LookupResult where
  | found (wt : Worktree)
  | notFound
  | ioError (code : Int)
  | nullSuccess
deriving DecidableEq, Repr

/-- The scan loop of `git_worktree_lookup`: for each valid admin directory,
resolve its target working directory and compare basenames with the requested
name; first match is opened and returned. -/
def lookupScan (fs : FS) (repo : Repo) (base : String) (name : String) :
    List String → LookupResult
  | [] => .notFound
  | worktree :: rest =>
    let path := base ++ worktree
    if is_worktree_private_directory fs path then
      match get_worktree_gitdir_from_private_directory fs path with
      | .error e => .ioError e
      | .ok worktree_dir =>
        if basename worktree_dir = basename name then
          match open_worktree_dir fs repo.workdir path name with
          | .error e => .ioError e
          | .ok wt => .found wt
        else lookupScan fs repo base name rest
    else lookupScan fs repo base name rest

/-- `git_worktree_lookup`: scan `commondir/worktrees/` for the first entry
whose resolved target's basename equals the requested name's basename.

The local `found` is declared without an initializer (worktree.c:229) and is
assigned 0 only at line 251, after the guard at lines 244-245 has jumped to
`out` for an absent or empty `worktrees/`.  On that path `error` is 0 and
`return (found == 0) ? -1 : 0` (line 292) reads the indeterminate stack
value.  The parameter `found0` models that value: 0 yields -1 (not-found),
any other value yields 0 — success with `*out` still NULL (`nullSuccess`).
On the scan path `found` is properly initialized and `found0` is ignored. -/
def git_worktree_lookup (fs : FS) (repo : Repo) (name : String) (found0 : Int) :
    LookupResult :=
  let path := joinpath repo.commondir "worktrees/"
  if registryMissing fs repo.commondir then
    if found0 = 0 then .notFound else .nullSuccess
  else lookupScan fs repo path name (dirList fs path)

/-! ## Freeing a worktree value (worktree.c:329-341)

The destructor is modelled by its call trace: the list of deallocation calls
it performs, in order.  `git__free` of the struct's owned string fields and of
the struct itself each appear as one element. -/

def git_worktree_free_trace : Option Worktree → List String
  | none => []
  | some _ =>
    ["commondir_path", "worktree_path", "gitlink_path",
     "gitdir_path", "parent_path", "name", "worktree_struct"]

/-! ## Structural validation (worktree.c:343-390) -/

def GIT_ERROR_CODE : Int := -1

/-- `git_worktree_validate`: the admin directory must still validate, and the
parent (when known), common directory and working directory must exist. -/
def git_worktree_validate (fs : FS) (wt : Worktree) : Int :=
  if ¬ is_worktree_private_directory fs wt.gitdir_path then GIT_ERROR_CODE
  else if (match wt.parent_path with
           | some p => !pathExists fs p
           | none => false) then GIT_ERROR_CODE
  else if ¬ pathExists fs wt.commondir_path then GIT_ERROR_CODE
  else if ¬ pathExists fs wt.worktree_path then GIT_ERROR_CODE
  else 0

/-! ## Lock manager (worktree.c:598-654) -/

def GIT_ELOCKED : Int := -14

/-- `git_worktree_lock`: fail with `GIT_ELOCKED` when already locked (leaving
the filesystem untouched), otherwise exclusively create the `locked` file
holding the optional reason.  Returns the error code and resulting state. -/
def git_worktree_lock (fs : FS) (wt : Worktree) (reason : Option String) :
    Int × FS :=
  if (git_worktree__is_locked fs wt).1 then (GIT_ELOCKED, fs)
  else
    let path := joinpath wt.gitdir_path "locked"
    (0, setPath fs path (.file (reason.getD "")))

/-- `git_worktree_unlock`: return the distinct non-error signal `1` (and
change nothing) when not locked, otherwise unlink the `locked` file and
return `0`. -/
def git_worktree_unlock (fs : FS) (wt : Worktree) : Int × FS :=
  if !(git_worktree__is_locked fs wt).1 then (1, fs)
  else
    let path := joinpath wt.gitdir_path "locked"
    (0, removePath fs path)

/-! ## Prune policy (worktree.c:729-764) -/

structure PruneOptions where
  pruneValid : Bool
  pruneLocked : Bool
  pruneWorkingTree : Bool
deriving DecidableEq, Repr

/-- `git_worktree_is_prunable`: refuse (0) for a locked worktree unless
`pruneLocked` is set — reporting the lock reason, defaulting to "no reason
given" when it is empty — and refuse for a worktree that still validates
unless `pruneValid` is set; otherwise prunable (1).  The second component is
the error message set on refusal. -/
def git_worktree_is_prunable (fs : FS) (wt : Worktree) (opts : PruneOptions) :
    Int × Option String :=
  if opts.pruneLocked = false ∧ (git_worktree__is_locked fs wt).1 then
    let reason := (git_worktree__is_locked fs wt).2
    (0, some ("not pruning locked working tree: "
      ++ (if reason = "" then "no reason given" else reason)))
  else if opts.pruneValid = false ∧ git_worktree_validate fs wt = 0 then
    (0, some "not pruning valid working tree")
  else (1, none)

/-! ## Prune (worktree.c:766-823) -/

/-- The admin directory removed by prune: `commondir/worktrees/<name>`
(`git_str_join3` at worktree.c:788). -/
def adminPath (wt : Worktree) : String :=
  wt.commondir_path ++ "/" ++ "worktrees" ++ "/" ++ wt.name

/-- `git_worktree_prune`: re-check prunability, then recursively remove the
admin directory `commondir/worktrees/<name>` — failing (and removing nothing)
when it is already absent — and, only when requested and the gitlink still
exists, recursively remove the working directory as well.  Returns the error
code and resulting state. -/
def git_worktree_prune (fs : FS) (wt : Worktree) (opts : PruneOptions) :
    Int × FS :=
  if (git_worktree_is_prunable fs wt opts).1 = 0 then (GIT_ERROR_CODE, fs)
  else
    let path := adminPath wt
    if ¬ pathExists fs path then (GIT_ERROR_CODE, fs)
    else
      let fs1 := rmdirRec fs path
      if opts.pruneWorkingTree = false || ¬ pathExists fs1 wt.gitlink_path then
        (0, fs1)
      else
        let wtpath := dirname wt.gitlink_path
        if ¬ pathExists fs1 wtpath then (GIT_ERROR_CODE, fs1)
        else (0, rmdirRec fs1 wtpath)

/-! ## Adding a worktree (worktree.c:412-596)

The external collaborators of `add` — reference duplication / branch creation
(worktree.c:548-560), `git_repository_open` and `git_checkout_head`
(worktree.c:566-575) — do not touch the admin directory; they are modelled as
steps that leave the modelled filesystem unchanged (checkout materializes
content inside the working directory, which the model does not track).
`git_repository_create_head` writes the admin directory's `HEAD` file and is
modelled as that write. -/

/-- Decimal digits of a natural number (first argument is fuel, always called
with `fuel = n`, which bounds the number of digits). -/
def natDecAux : Nat → Nat → List Char → List Char
  | 0, _, acc => acc
  | _ + 1, 0, acc => acc
  | fuel + 1, n, acc => natDecAux fuel (n / 10) (Char.ofNat (48 + n % 10) :: acc)

def natToDecStr (n : Nat) : String :=
  if n = 0 then "0" else String.mk (natDecAux n n [])

/-- `sprintf("%d", i)` for the suffix counter. -/
def intToDecStr (i : Int) : String :=
  if i < 0 then "-" ++ natToDecStr i.natAbs else natToDecStr i.toNat

/-- Two's-complement wrap of the `int8_t` suffix counter (the C increment of
an `int8_t` at 127 overflows; the model wraps). -/
def int8wrap (i : Int) : Int := (i + 128) % 256 - 128

/-- The admin-directory naming loop of `git_worktree_add` (worktree.c:480-492),
translated verbatim: while the candidate path exists, the decimal rendering of
the counter is appended to the current (already suffixed) name and the
`int8_t` counter is incremented.  The C loop is `while (true)` with no bound
and no failure path; the fuel argument only makes the model total. -/
def worktree_name_loop (fs : FS) (gitdir : String) :
    String → Int → Nat → Option String
  | _, _, 0 => none
  | name, suffix, fuel + 1 =>
    let tmp := joinpath gitdir name
    if pathExists fs tmp then
      worktree_name_loop fs gitdir (name ++ intToDecStr suffix)
        (int8wrap (suffix + 1)) fuel
    else some tmp

/-- `write_wtfile` (worktree.c:139-158): exclusive-create write of a link
file; fails when the path already exists. -/
def write_wtfile (fs : FS) (base file : String) (buf : String) : Except Int FS :=
  let path := joinpath base file
  if pathExists fs path then .error (-1)
  else .ok (setPath fs path (.file buf))

/-- The filesystem mutation steps of `git_worktree_add`, in program order. -/
inductive AddStep where
  | mkWorktreesDir
  | mkAdminDir
  | mkWorkdir
  | createLockFile
  | writeGitFile
  | writeCommondirFile
  | writeGitdirFile
  | createHead
  | checkoutHead
  | finalLookup
deriving DecidableEq, Repr

structure AddOptions where
  lock : Bool
deriving DecidableEq, Repr

structure AddResult where
  fs : FS
  wt : Worktree
  privdir : String
  steps : List AddStep
deriving DecidableEq, Repr

/-- The tail of `git_worktree_add` after the `worktrees/` directory has been
ensured: `fsA` is the filesystem at that point and `stepsA` the steps
performed so far (`[.mkWorktreesDir]` or `[]`).

The final lookup is called with `found0 = 0`: in the C, by the time add
reaches its lookup (worktree.c:579) it has already created the new admin
directory under `worktrees/` (line 497), so `worktrees/` exists and is
nonempty and lookup's uninitialized-`found` branch cannot be taken from
add — `found` is always assigned 0 there, which is the value the model
passes. -/
def git_worktree_add_stage (fsA : FS) (stepsA : List AddStep) (repo : Repo)
    (name worktree gitdir0 : String) (lock : Bool) (fuel : Nat) :
    Except Int AddResult :=
  match worktree_name_loop fsA gitdir0 (basename worktree) 1 fuel with
  | none => .error (-1)
  | some privdir =>
    if pathExists fsA privdir then .error (-1)
    else
      let fs2 := setPath fsA privdir .dir
      if pathExists fs2 worktree then .error (-1)
      else
        let fs3 := setPath fs2 worktree .dir
        let st4 : FS × List AddStep :=
          match lock with
          | true =>
            (setPath fs3 (joinpath privdir "locked") (.file ""),
             stepsA ++ [.mkAdminDir, .mkWorkdir, .createLockFile])
          | false => (fs3, stepsA ++ [.mkAdminDir, .mkWorkdir])
        match write_wtfile st4.1 worktree ".git" ("gitdir: " ++ privdir ++ "\n") with
        | .error e => .error e
        | .ok fs5 =>
          match write_wtfile fs5 privdir "commondir" (repo.commondir ++ "\n") with
          | .error e => .error e
          | .ok fs6 =>
            match write_wtfile fs6 privdir "gitdir" (joinpath worktree ".git" ++ "\n") with
            | .error e => .error e
            | .ok fs7 =>
              let fs8 := setPath fs7 (joinpath privdir "HEAD")
                (.file ("ref: refs/heads/" ++ name ++ "\n"))
              match git_worktree_lookup fs8 repo worktree 0 with
              | .found wt =>
                .ok { fs := fs8, wt := wt, privdir := privdir,
                      steps := st4.2 ++ [.writeGitFile, .writeCommondirFile,
                        .writeGitdirFile, .createHead, .checkoutHead, .finalLookup] }
              | _ => .error (-1)

/-- `git_worktree_add` (modelled for the default `ref = NULL` configuration):
ensure `worktrees/` exists, compute the admin-directory name from the
basename of the target directory (suffixing on collision), create the admin
and working directories, create the `locked` marker when requested, write the
gitlink and link files, write the worktree `HEAD`, check out (external), and
finish with a lookup of the target path. -/
def git_worktree_add (fs : FS) (repo : Repo) (name worktree : String)
    (opts : AddOptions) (fuel : Nat) : Except Int AddResult :=
  let gitdir0 := joinpath repo.commondir "worktrees"
  if ¬ pathExists fs gitdir0 then
    git_worktree_add_stage (setPath fs gitdir0 .dir) [.mkWorktreesDir]
      repo name worktree gitdir0 opts.lock fuel
  else
    git_worktree_add_stage fs [] repo name worktree gitdir0 opts.lock fuel

/-! ## The spec's characterization of lookup (for the C2 refinement)

Written from the spec's words (§4.3): lookup "scans as above; for each valid
admin directory, resolves its target gitdir and compares its final
path-segment (basename) against the basename of the requested name. First
match wins (enumeration order dependent)." -/

/-- Does an entry of `worktrees/` match the requested name, the way the spec
describes the scan? -/
def lookup_entry_matches (fs : FS) (base name entry : String) : Bool :=
  is_worktree_private_directory fs (base ++ entry) &&
    (match get_worktree_gitdir_from_private_directory fs (base ++ entry) with
     | .ok worktree_dir => basename worktree_dir == basename name
     | .error _ => false)

/-- The first matching entry of the scan, as the spec words it. -/
def git_worktree_lookup_spec (fs : FS) (repo : Repo) (name : String) :
    Option String :=
  let path := joinpath repo.commondir "worktrees/"
  if registryMissing fs repo.commondir then none
  else (dirList fs path).find? (lookup_entry_matches fs path name)

/-! ## Concrete fixtures used by witnesses and counterexamples -/

/-- A valid admin directory at `/d`. -/
def fs1 : FS :=
  [("/d/commondir", .file "/r\n"), ("/d/gitdir", .file "/w/.git\n"),
   ("/d/HEAD", .file "x")]

/-- An admin directory whose `gitdir` link is relative. -/
def fsRel : FS := [("/d/gitdir", .file "w/.git\n")]

/-- A registry with one valid worktree `wt` whose working directory is
`/a/wt`. -/
def fsL : FS :=
  [("/r/worktrees", .dir),
   ("/r/worktrees/wt", .dir),
   ("/r/worktrees/wt/commondir", .file "/r\n"),
   ("/r/worktrees/wt/gitdir", .file "/a/wt/.git\n"),
   ("/r/worktrees/wt/HEAD", .file "ref: refs/heads/wt\n")]

def repoL : Repo := { commondir := "/r", workdir := some "/main" }

/-- A registry whose two entries are both invalid admin directories. -/
def fsC4 : FS :=
  [("/r/worktrees", .dir), ("/r/worktrees/a", .dir), ("/r/worktrees/b", .dir)]

/-- A registry where the basename `wt` and its first suffixed name `wt1` are
both taken. -/
def fsC3 : FS :=
  [("/r/worktrees", .dir), ("/r/worktrees/wt", .dir), ("/r/worktrees/wt1", .dir)]

/-- A bare repository root with no `worktrees/` directory yet. -/
def fsW8 : FS := [("/r", .dir)]

/-- The result of adding a locked worktree `/b/neww` to `fsW8`. -/
def rC8fix : AddResult :=
  (git_worktree_add fsW8 repoL "n1" "/b/neww" { lock := true } 300).toOption.getD
    { fs := [], wt := { name := "", gitdir_path := "", commondir_path := "",
                        gitlink_path := "", worktree_path := "",
                        parent_path := none, locked := false },
      privdir := "", steps := [] }

/-- A worktree value for the `wt` entry of `fsL`, as lookup constructs it. -/
def wtL : Worktree :=
  { name := "/b/wt", gitdir_path := "/r/worktrees/wt", commondir_path := "/r",
    gitlink_path := "/a/wt/.git", worktree_path := "/a/wt",
    parent_path := some "/main", locked := false }

/-- `fsL` with the `wt` worktree locked with an empty reason. -/
def fsLk : FS := fsL ++ [("/r/worktrees/wt/locked", .file "")]

/-- A structurally broken worktree value: its admin directory exists in the
registry but holds no link files, so validation fails and it is prunable. -/
def wt9 : Worktree :=
  { name := "wt", gitdir_path := "/r/worktrees/wt", commondir_path := "/r",
    gitlink_path := "/a/wt/.git", worktree_path := "/a/wt",
    parent_path := none, locked := false }

/-- Registry for `wt9`: the admin directory exists but is empty; the working
directory and its gitlink exist on disk. -/
def fs9 : FS :=
  [("/r", .dir), ("/r/worktrees", .dir), ("/r/worktrees/wt", .dir),
   ("/a/wt", .dir), ("/a/wt/.git", .file "gitdir: /r/worktrees/wt\n")]

/-- `fs9` with the admin directory already absent. -/
def fs9b : FS :=
  [("/r", .dir), ("/r/worktrees", .dir),
   ("/a/wt", .dir), ("/a/wt/.git", .file "gitdir: /r/worktrees/wt\n")]

/-! # Helper lemmas about the filesystem model -/

theorem lookupPath_filter_none (fs : FS) (p : String) (f : String × FsEntry → Bool)
    (hf : ∀ kv : String × FsEntry, kv.1 = p → f kv = false) :
    lookupPath (fs.filter f) p = none := by
  induction fs with
  | nil => rfl
  | cons kv rest ih =>
    obtain ⟨k, e⟩ := kv
    cases hfk : f (k, e) with
    | false =>
      rw [List.filter_cons, if_neg (by simp [hfk])]
      exact ih
    | true =>
      rw [List.filter_cons, if_pos hfk]
      have hk : ¬ k = p := fun hkp => by simp [hf (k, e) hkp] at hfk
      simp only [lookupPath]
      rw [if_neg hk]
      exact ih

theorem lookupPath_filter_of_none (fs : FS) (q : String) (f : String × FsEntry → Bool)
    (h : lookupPath fs q = none) :
    lookupPath (fs.filter f) q = none := by
  induction fs with
  | nil => rfl
  | cons kv rest ih =>
    obtain ⟨k, e⟩ := kv
    simp only [lookupPath] at h
    by_cases hk : k = q
    · rw [if_pos hk] at h
      cases h
    · rw [if_neg hk] at h
      cases hfk : f (k, e) with
      | false =>
        rw [List.filter_cons, if_neg (by simp [hfk])]
        exact ih h
      | true =>
        rw [List.filter_cons, if_pos hfk]
        simp only [lookupPath]
        rw [if_neg hk]
        exact ih h

theorem lookupPath_filter_keep (fs : FS) (q : String) (f : String × FsEntry → Bool)
    (hf : ∀ kv : String × FsEntry, kv.1 = q → f kv = true) :
    lookupPath (fs.filter f) q = lookupPath fs q := by
  induction fs with
  | nil => rfl
  | cons kv rest ih =>
    obtain ⟨k, e⟩ := kv
    by_cases hk : k = q
    · rw [List.filter_cons, if_pos (hf (k, e) hk)]
      simp only [lookupPath]
      rw [if_pos hk, if_pos hk]
    · cases hfk : f (k, e) with
      | false =>
        rw [List.filter_cons, if_neg (by simp [hfk])]
        rw [ih]
        simp only [lookupPath]
        rw [if_neg hk]
      | true =>
        rw [List.filter_cons, if_pos hfk]
        simp only [lookupPath]
        rw [if_neg hk, if_neg hk]
        exact ih

theorem lookupPath_append (l1 l2 : FS) (p : String) :
    lookupPath (l1 ++ l2) p =
      match lookupPath l1 p with
      | some e => some e
      | none => lookupPath l2 p := by
  induction l1 with
  | nil => rfl
  | cons kv rest ih =>
    obtain ⟨k, e⟩ := kv
    show lookupPath ((k, e) :: (rest ++ l2)) p = _
    simp only [lookupPath]
    by_cases hk : k = p
    · rw [if_pos hk, if_pos hk]
    · rw [if_neg hk, if_neg hk, ih]

theorem lookupPath_setPath_self (fs : FS) (p : String) (e : FsEntry) :
    lookupPath (setPath fs p e) p = some e := by
  unfold setPath
  rw [lookupPath_append,
    lookupPath_filter_none fs p _ (fun kv hkv => by simp [hkv])]
  simp [lookupPath]

theorem lookupPath_setPath_ne (fs : FS) (p q : String) (e : FsEntry) (h : p ≠ q) :
    lookupPath (setPath fs q e) p = lookupPath fs p := by
  unfold setPath
  rw [lookupPath_append,
    lookupPath_filter_keep fs p _ (fun kv hkv => by simp [hkv]; exact h)]
  cases hl : lookupPath fs p with
  | some e' => rfl
  | none => simp [lookupPath, Ne.symm h]

theorem lookupPath_removePath_self (fs : FS) (p : String) :
    lookupPath (removePath fs p) p = none :=
  lookupPath_filter_none fs p _ (fun kv hkv => by simp [hkv])

theorem pathExists_rmdirRec_self (fs : FS) (p : String) :
    pathExists (rmdirRec fs p) p = false := by
  unfold pathExists rmdirRec
  rw [lookupPath_filter_none fs p _ (fun kv hkv => by simp [hkv])]
  rfl

theorem pathExists_false_lookupPath (fs : FS) (p : String)
    (h : pathExists fs p = false) : lookupPath fs p = none := by
  unfold pathExists at h
  cases hl : lookupPath fs p with
  | some e => rw [hl] at h; cases h
  | none => rfl

theorem pathExists_rmdirRec_of_not (fs : FS) (p q : String)
    (h : pathExists fs q = false) : pathExists (rmdirRec fs p) q = false := by
  unfold pathExists rmdirRec
  rw [lookupPath_filter_of_none fs q _ (pathExists_false_lookupPath fs q h)]
  rfl

/-- The three file checks behind the validator, as a conjunction. -/
theorem wpd_iff (fs : FS) (d : String) :
    is_worktree_private_directory fs d = true ↔
      isFile fs (joinpath d "commondir") = true ∧
      isFile fs (joinpath d "gitdir") = true ∧
      isFile fs (joinpath d "HEAD") = true := by
  simp [is_worktree_private_directory, git_fs_path_contains_file,
    Bool.and_eq_true, and_assoc]

theorem isFile_of_lookupPath_none (fs : FS) (p : String)
    (h : lookupPath fs p = none) : isFile fs p = false := by
  simp [isFile, h]

/-! # C1 -/

/-- C1: the private-directory validator returns true iff the directory
directly contains the regular files `commondir`, `gitdir` and `HEAD`, and
removing any one of the three from the directory flips it to false. -/
theorem C1_validator_completeness (fs : FS) (d : String) :
    (is_worktree_private_directory fs d = true ↔
      isFile fs (joinpath d "commondir") = true ∧
      isFile fs (joinpath d "gitdir") = true ∧
      isFile fs (joinpath d "HEAD") = true) ∧
    ∀ f ∈ (["commondir", "gitdir", "HEAD"] : List String),
      is_worktree_private_directory fs d = true →
      is_worktree_private_directory (removePath fs (joinpath d f)) d = false := by
  refine ⟨wpd_iff fs d, ?_⟩
  intro f hf _
  have hrm : isFile (removePath fs (joinpath d f)) (joinpath d f) = false :=
    isFile_of_lookupPath_none _ _ (lookupPath_removePath_self fs (joinpath d f))
  simp only [List.mem_cons, List.not_mem_nil, or_false] at hf
  rcases hf with rfl | rfl | rfl <;>
    simp [is_worktree_private_directory, git_fs_path_contains_file, hrm]

/-- Witness for C1 at a concrete admin directory. -/
theorem C1_validator_completeness_witness :
    is_worktree_private_directory fs1 "/d" = true ∧
    is_worktree_private_directory (removePath fs1 (joinpath "/d" "commondir")) "/d" = false :=
  ⟨by decide,
   (C1_validator_completeness fs1 "/d").2 "commondir" (by decide) (by decide)⟩

/-! # C3 -/

/-- C3: at a registry where the basename `wt` collides and its first suffixed
candidate `wt1` also collides, the naming loop's next candidate is `wt12` —
the counter's digits accumulate on the evolving name instead of replacing the
previous suffix — and the search returns it successfully rather than counting
collisions toward a 255-capped `ResourceExhausted` failure. -/
theorem C3_suffix_digits_accumulate :
    worktree_name_loop fsC3 "/r/worktrees" "wt" 1 300 = some "/r/worktrees/wt12" := by
  decide

/-! # C4 -/

/-- C4: with two consecutive invalid entries `a`, `b` under `worktrees/`,
removing `a` in place shifts `b` to the index the loop has already passed, so
`b` is returned by list even though it is not a valid admin directory. -/
theorem C4_list_keeps_skipped_invalid_entry :
    git_worktree_list fsC4 repoL = .ok ["b"] ∧
    is_worktree_private_directory fsC4 ("/r/worktrees/" ++ "b") = false :=
  ⟨by decide, by decide⟩

/-! # C10 -/

/-- C10: freeing a NULL worktree performs no deallocation at all, and freeing
a non-NULL worktree releases each owned string field exactly once. -/
theorem C10_free_null_noop_each_field_once (wt : Worktree) :
    git_worktree_free_trace none = [] ∧
    (git_worktree_free_trace (some wt)).count "commondir_path" = 1 ∧
    (git_worktree_free_trace (some wt)).count "worktree_path" = 1 ∧
    (git_worktree_free_trace (some wt)).count "gitlink_path" = 1 ∧
    (git_worktree_free_trace (some wt)).count "gitdir_path" = 1 ∧
    (git_worktree_free_trace (some wt)).count "parent_path" = 1 ∧
    (git_worktree_free_trace (some wt)).count "name" = 1 := by
  refine ⟨rfl, ?_, ?_, ?_, ?_, ?_, ?_⟩ <;> rfl

/-! # C5 -/

/-- How `git_worktree__read_link` behaves on a readable file. -/
theorem read_link_eq (fs : FS) (base file c : String)
    (hc : readFile fs (joinpath base file) = some c) :
    git_worktree__read_link fs base file =
      some (if git_fs_path_is_relative (rtrim c) then applyRelative base (rtrim c)
            else rtrim c) := by
  by_cases h : git_fs_path_is_relative (rtrim c)
  · simp [git_worktree__read_link, hc, h]
  · simp [git_worktree__read_link, hc, h]

/-- C5: read_link fails when the link file is missing or unreadable;
otherwise it trims trailing whitespace from the content, returns absolute
content verbatim, and resolves relative content against the base directory
into a normalized path. -/
theorem C5_read_link_semantics (fs : FS) (base file c : String) :
    (readFile fs (joinpath base file) = none →
      git_worktree__read_link fs base file = none) ∧
    (readFile fs (joinpath base file) = some c → isAbsolute (rtrim c) = true →
      git_worktree__read_link fs base file = some (rtrim c)) ∧
    (readFile fs (joinpath base file) = some c → isAbsolute (rtrim c) = false →
      git_worktree__read_link fs base file = some (applyRelative base (rtrim c))) := by
  refine ⟨?_, ?_, ?_⟩
  · intro h
    simp [git_worktree__read_link, h]
  · intro h habs
    rw [read_link_eq fs base file c h]
    simp [git_fs_path_is_relative, habs]
  · intro h habs
    rw [read_link_eq fs base file c h]
    simp [git_fs_path_is_relative, habs]

/-- Witness for C5: a missing file, an absolute link and a relative link. -/
theorem C5_read_link_semantics_witness :
    git_worktree__read_link fs1 "/d" "missing" = none ∧
    git_worktree__read_link fs1 "/d" "gitdir" = some "/w/.git" ∧
    git_worktree__read_link fsRel "/d" "gitdir" = some "/d/w/.git" :=
  ⟨(C5_read_link_semantics fs1 "/d" "missing" "").1 (by decide),
   by
     have h := (C5_read_link_semantics fs1 "/d" "gitdir" "/w/.git\n").2.1
       (by decide) (by decide)
     exact h.trans (by decide),
   by
     have h := (C5_read_link_semantics fsRel "/d" "gitdir" "w/.git\n").2.2
       (by decide) (by decide)
     exact h.trans (by decide)⟩

/-! # C6 -/

/-- C6: locking an already-locked worktree fails with `GIT_ELOCKED` and
leaves the filesystem untouched; unlocking an unlocked worktree returns the
distinct non-error signal 1 (not 0) and changes nothing. -/
theorem C6_lock_unlock_boundary (fs : FS) (wt : Worktree) (reason : Option String) :
    ((git_worktree__is_locked fs wt).1 = true →
      git_worktree_lock fs wt reason = (GIT_ELOCKED, fs)) ∧
    ((git_worktree__is_locked fs wt).1 = false →
      git_worktree_unlock fs wt = (1, fs)) := by
  constructor
  · intro h
    simp [git_worktree_lock, h]
  · intro h
    simp [git_worktree_unlock, h]

/-- Witness for C6: a locked and an unlocked concrete worktree. -/
theorem C6_lock_unlock_boundary_witness :
    git_worktree_lock fsLk wtL (some "busy") = (GIT_ELOCKED, fsLk) ∧
    git_worktree_unlock fsL wtL = (1, fsL) :=
  ⟨(C6_lock_unlock_boundary fsLk wtL (some "busy")).1 (by decide),
   (C6_lock_unlock_boundary fsL wtL none).2 (by decide)⟩

/-! # C7 -/

/-- C7: is_prunable refuses a locked worktree unless `pruneLocked` is set,
refuses a worktree that still validates unless `pruneValid` is set, answers 1
exactly when each guard is satisfied or bypassed, and reports "no reason
given" when refusing for a lock whose reason is empty. -/
theorem C7_prunable_guards (fs : FS) (wt : Worktree) (opts : PruneOptions) :
    ((git_worktree__is_locked fs wt).1 = true → opts.pruneLocked = false →
      (git_worktree_is_prunable fs wt opts).1 = 0) ∧
    (git_worktree_validate fs wt = 0 → opts.pruneValid = false →
      (git_worktree_is_prunable fs wt opts).1 = 0) ∧
    ((git_worktree_is_prunable fs wt opts).1 = 1 ↔
      ((git_worktree__is_locked fs wt).1 = false ∨ opts.pruneLocked = true) ∧
      (git_worktree_validate fs wt ≠ 0 ∨ opts.pruneValid = true)) ∧
    ((git_worktree__is_locked fs wt).1 = true → opts.pruneLocked = false →
      (git_worktree__is_locked fs wt).2 = "" →
      (git_worktree_is_prunable fs wt opts).2 =
        some ("not pruning locked working tree: " ++ "no reason given")) := by
  refine ⟨?_, ?_, ?_, ?_⟩
  · intro hL hpl
    simp [git_worktree_is_prunable, hL, hpl]
  · intro hV hpv
    unfold git_worktree_is_prunable
    by_cases hc : opts.pruneLocked = false ∧ (git_worktree__is_locked fs wt).1 = true
    · simp [hc]
    · simp [hc, hpv, hV]
  · by_cases hL : (git_worktree__is_locked fs wt).1 = true <;>
      by_cases hpl : opts.pruneLocked = true <;>
      by_cases hV : git_worktree_validate fs wt = 0 <;>
      by_cases hpv : opts.pruneValid = true <;>
      simp [git_worktree_is_prunable, hL, hpl, hV, hpv]
  · intro hL hpl hr
    simp [git_worktree_is_prunable, hL, hpl, hr]

/-- Witness for C7: a worktree locked with an empty reason and default prune
options is not prunable and reports the default reason. -/
theorem C7_prunable_guards_witness :
    (git_worktree_is_prunable fsLk wtL ⟨false, false, false⟩).1 = 0 ∧
    (git_worktree_is_prunable fsLk wtL ⟨false, false, false⟩).2 =
      some ("not pruning locked working tree: " ++ "no reason given") :=
  ⟨(C7_prunable_guards fsLk wtL ⟨false, false, false⟩).1 (by decide) rfl,
   (C7_prunable_guards fsLk wtL ⟨false, false, false⟩).2.2.2 (by decide) rfl (by decide)⟩

/-! # C9 -/

/-- C9: for a prunable worktree, prune fails (removing nothing) when the
admin directory `commondir/worktrees/<name>` is already absent; on success
the admin directory is gone; the working directory is removed only when the
remove-working-tree option is set and the gitlink still exists, and the state
is otherwise exactly the one with only the admin directory removed. -/
theorem C9_prune_semantics (fs : FS) (wt : Worktree) (opts : PruneOptions) :
    ((git_worktree_is_prunable fs wt opts).1 ≠ 0 →
      pathExists fs (adminPath wt) = false →
      git_worktree_prune fs wt opts = (GIT_ERROR_CODE, fs)) ∧
    ((git_worktree_prune fs wt opts).1 = 0 →
      pathExists (git_worktree_prune fs wt opts).2 (adminPath wt) = false) ∧
    (opts.pruneWorkingTree = false → (git_worktree_prune fs wt opts).1 = 0 →
      (git_worktree_prune fs wt opts).2 = rmdirRec fs (adminPath wt)) ∧
    ((git_worktree_prune fs wt opts).1 = 0 →
      pathExists (rmdirRec fs (adminPath wt)) wt.gitlink_path = false →
      (git_worktree_prune fs wt opts).2 = rmdirRec fs (adminPath wt)) ∧
    (opts.pruneWorkingTree = true → (git_worktree_prune fs wt opts).1 = 0 →
      pathExists (rmdirRec fs (adminPath wt)) wt.gitlink_path = true →
      (git_worktree_prune fs wt opts).2 =
        rmdirRec (rmdirRec fs (adminPath wt)) (dirname wt.gitlink_path)) := by
  refine ⟨?_, ?_, ?_, ?_, ?_⟩
  · intro hp hne
    simp [git_worktree_prune, hp, hne]
  · intro hs
    by_cases h0 : (git_worktree_is_prunable fs wt opts).1 = 0
    · simp [git_worktree_prune, h0, GIT_ERROR_CODE] at hs
    · by_cases h1 : pathExists fs (adminPath wt) = true
      · by_cases hw : opts.pruneWorkingTree = false
        · simp [git_worktree_prune, h0, h1, hw]
          exact pathExists_rmdirRec_self fs (adminPath wt)
        · by_cases hg : pathExists (rmdirRec fs (adminPath wt)) wt.gitlink_path = true
          · by_cases hwp :
              pathExists (rmdirRec fs (adminPath wt)) (dirname wt.gitlink_path) = true
            · simp [git_worktree_prune, h0, h1, hw, hg, hwp]
              exact pathExists_rmdirRec_of_not _ _ _
                (pathExists_rmdirRec_self fs (adminPath wt))
            · simp [git_worktree_prune, h0, h1, hw, hg, hwp, GIT_ERROR_CODE] at hs
          · simp [git_worktree_prune, h0, h1, hw, hg]
            exact pathExists_rmdirRec_self fs (adminPath wt)
      · simp [git_worktree_prune, h0, h1, GIT_ERROR_CODE] at hs
  · intro hwf hs
    by_cases h0 : (git_worktree_is_prunable fs wt opts).1 = 0
    · simp [git_worktree_prune, h0, GIT_ERROR_CODE] at hs
    · by_cases h1 : pathExists fs (adminPath wt) = true
      · simp [git_worktree_prune, h0, h1, hwf]
      · simp [git_worktree_prune, h0, h1, GIT_ERROR_CODE] at hs
  · intro hs hgone
    by_cases h0 : (git_worktree_is_prunable fs wt opts).1 = 0
    · simp [git_worktree_prune, h0, GIT_ERROR_CODE] at hs
    · by_cases h1 : pathExists fs (adminPath wt) = true
      · by_cases hw : opts.pruneWorkingTree = false
        · simp [git_worktree_prune, h0, h1, hw]
        · simp [git_worktree_prune, h0, h1, hw, hgone]
      · simp [git_worktree_prune, h0, h1, GIT_ERROR_CODE] at hs
  · intro hwt hs hg
    by_cases h0 : (git_worktree_is_prunable fs wt opts).1 = 0
    · simp [git_worktree_prune, h0, GIT_ERROR_CODE] at hs
    · by_cases h1 : pathExists fs (adminPath wt) = true
      · by_cases hwp :
          pathExists (rmdirRec fs (adminPath wt)) (dirname wt.gitlink_path) = true
        · simp [git_worktree_prune, h0, h1, hwt, hg, hwp]
        · simp [git_worktree_prune, h0, h1, hwt, hg, hwp, GIT_ERROR_CODE] at hs
      · simp [git_worktree_prune, h0, h1, GIT_ERROR_CODE] at hs

/-- Witness for C9: an invalid (hence prunable) worktree is pruned from the
registry leaving only the admin directory removed; with the admin directory
already absent, prune fails and changes nothing. -/
theorem C9_prune_semantics_witness :
    (git_worktree_prune fs9 wt9 ⟨false, false, false⟩).2 =
      rmdirRec fs9 (adminPath wt9) ∧
    git_worktree_prune fs9b wt9 ⟨false, false, false⟩ = (GIT_ERROR_CODE, fs9b) :=
  ⟨(C9_prune_semantics fs9 wt9 ⟨false, false, false⟩).2.2.1 rfl (by decide),
   (C9_prune_semantics fs9b wt9 ⟨false, false, false⟩).1 (by decide) (by decide)⟩

/-! # C2 -/

theorem isFile_readFile (fs : FS) (p : String) (h : isFile fs p = true) :
    ∃ c, readFile fs p = some c := by
  cases hl : lookupPath fs p with
  | none => simp [isFile, hl] at h
  | some e =>
    cases e with
    | file c => exact ⟨c, by simp [readFile, hl]⟩
    | dir => simp [isFile, hl] at h

/-- On a valid admin directory, resolving the target working directory
succeeds and returns the parent of the `gitdir` link's target. -/
theorem get_gitdir_ok (fs : FS) (dir : String)
    (h : is_worktree_private_directory fs dir = true) :
    ∃ s, git_worktree__read_link fs dir "gitdir" = some s ∧
      get_worktree_gitdir_from_private_directory fs dir = .ok (applyRelative s "..") := by
  obtain ⟨c, hc⟩ := isFile_readFile fs _ ((wpd_iff fs dir).1 h).2.1
  refine ⟨_, read_link_eq fs dir "gitdir" c hc, ?_⟩
  simp [get_worktree_gitdir_from_private_directory, h,
    read_link_eq fs dir "gitdir" c hc]

/-- On a valid admin directory, opening the worktree value succeeds. -/
theorem open_worktree_dir_ok (fs : FS) (parent : Option String) (dir name : String)
    (h : is_worktree_private_directory fs dir = true) :
    ∃ wt, open_worktree_dir fs parent dir name = .ok wt := by
  obtain ⟨c1, hc1⟩ := isFile_readFile fs _ ((wpd_iff fs dir).1 h).1
  obtain ⟨c2, hc2⟩ := isFile_readFile fs _ ((wpd_iff fs dir).1 h).2.1
  unfold open_worktree_dir
  rw [read_link_eq fs dir "commondir" c1 hc1, read_link_eq fs dir "gitdir" c2 hc2,
    if_neg (by simp [h])]
  exact ⟨_, rfl⟩

/-- The scan loop of lookup returns exactly what the spec's first-match
characterization designates: the worktree opened from the first entry
matching by basename, or not-found when no entry matches. -/
theorem lookupScan_eq_find (fs : FS) (repo : Repo) (base name : String)
    (entries : List String) :
    (entries.find? (lookup_entry_matches fs base name) = none →
      lookupScan fs repo base name entries = .notFound) ∧
    (∀ e, entries.find? (lookup_entry_matches fs base name) = some e →
      ∃ wt, open_worktree_dir fs repo.workdir (base ++ e) name = .ok wt ∧
        lookupScan fs repo base name entries = .found wt) := by
  induction entries with
  | nil =>
    exact ⟨fun _ => rfl, fun e he => by simp at he⟩
  | cons a rest ih =>
    by_cases hwpd : is_worktree_private_directory fs (base ++ a) = true
    · obtain ⟨s, hrl, hget⟩ := get_gitdir_ok fs (base ++ a) hwpd
      by_cases hb : basename (applyRelative s "..") = basename name
      · have hm : lookup_entry_matches fs base name a = true := by
          simp [lookup_entry_matches, hwpd, hget, hb]
        obtain ⟨wt, hopen⟩ := open_worktree_dir_ok fs repo.workdir (base ++ a) name hwpd
        constructor
        · intro hnone
          rw [List.find?_cons_of_pos _ hm] at hnone
          cases hnone
        · intro e he
          rw [List.find?_cons_of_pos _ hm] at he
          injection he with he
          subst he
          exact ⟨wt, hopen, by simp [lookupScan, hwpd, hget, hb, hopen]⟩
      · have hm : ¬ lookup_entry_matches fs base name a = true := by
          simp [lookup_entry_matches, hwpd, hget, hb]
        have hscan : lookupScan fs repo base name (a :: rest) =
            lookupScan fs repo base name rest := by
          simp [lookupScan, hwpd, hget, hb]
        constructor
        · intro hnone
          rw [List.find?_cons_of_neg _ hm] at hnone
          rw [hscan]
          exact ih.1 hnone
        · intro e he
          rw [List.find?_cons_of_neg _ hm] at he
          obtain ⟨wt, h1, h2⟩ := ih.2 e he
          exact ⟨wt, h1, by rw [hscan, h2]⟩
    · have hm : ¬ lookup_entry_matches fs base name a = true := by
        simp [lookup_entry_matches, hwpd]
      have hscan : lookupScan fs repo base name (a :: rest) =
          lookupScan fs repo base name rest := by
        simp [lookupScan, hwpd]
      constructor
      · intro hnone
        rw [List.find?_cons_of_neg _ hm] at hnone
        rw [hscan]
        exact ih.1 hnone
      · intro e he
        rw [List.find?_cons_of_neg _ hm] at he
        obtain ⟨wt, h1, h2⟩ := ih.2 e he
        exact ⟨wt, h1, by rw [hscan, h2]⟩

/-- On a present, nonempty registry — where the C initializes `found := 0`
before the scan (worktree.c:251) — lookup behaves as the spec's first-match
characterization, independently of the indeterminate initial stack value:
the worktree opened from the first basename-matching entry, not-found when no
entry matches. -/
theorem lookup_first_match_of_registry_present (fs : FS) (repo : Repo)
    (name : String) (found0 : Int)
    (hreg : registryMissing fs repo.commondir = false) :
    (git_worktree_lookup_spec fs repo name = none →
      git_worktree_lookup fs repo name found0 = .notFound) ∧
    (∀ e, git_worktree_lookup_spec fs repo name = some e →
      ∃ wt, open_worktree_dir fs repo.workdir
          (joinpath repo.commondir "worktrees/" ++ e) name = .ok wt ∧
        git_worktree_lookup fs repo name found0 = .found wt) := by
  have h := lookupScan_eq_find fs repo (joinpath repo.commondir "worktrees/") name
    (dirList fs (joinpath repo.commondir "worktrees/"))
  constructor
  · intro hnone
    simp only [git_worktree_lookup_spec, hreg, if_false, Bool.false_eq_true] at hnone
    simp only [git_worktree_lookup, hreg, if_false, Bool.false_eq_true]
    exact h.1 hnone
  · intro e he
    simp only [git_worktree_lookup_spec, hreg, if_false, Bool.false_eq_true] at he
    obtain ⟨wt, h1, h2⟩ := h.2 e he
    refine ⟨wt, h1, ?_⟩
    simp only [git_worktree_lookup, hreg, if_false, Bool.false_eq_true]
    exact h2

/-- C2: on the failing input — a repository whose `worktrees/` directory does
not exist, so no entry matches — the result of lookup depends on the
indeterminate initial value of `found` (declared uninitialized at
worktree.c:229, assigned only at line 251 after the guard at lines 244-245
has jumped to `out`): a zero stack value yields the claimed not-found (-1),
but any nonzero stack value makes `return (found == 0) ? -1 : 0` report
success with `*out` still NULL, not NotFound. -/
theorem C2_lookup_uninitialized_found :
    git_worktree_lookup fsW8 repoL "wt" 0 = .notFound ∧
    git_worktree_lookup fsW8 repoL "wt" 1 = .nullSuccess :=
  ⟨by decide, by decide⟩

/-! # C8 -/

theorem string_append_left_cancel {a x y : String} (h : a ++ x = a ++ y) :
    x = y := by
  have hd := congrArg String.data h
  simp only [String.data_append] at hd
  exact String.ext (List.append_cancel_left hd)

theorem joinpath_ne_of_ne (p : String) {x y : String} (h : x ≠ y) :
    joinpath p x ≠ joinpath p y := by
  intro hc
  unfold joinpath at hc
  by_cases hp : endsWithSlash p = true
  · rw [if_pos hp, if_pos hp] at hc
    exact h (string_append_left_cancel hc)
  · rw [if_neg hp, if_neg hp] at hc
    exact h (string_append_left_cancel hc)

theorem write_wtfile_ok (fs : FS) (base file buf : String) (fs' : FS)
    (h : write_wtfile fs base file buf = .ok fs') :
    pathExists fs (joinpath base file) = false ∧
    fs' = setPath fs (joinpath base file) (.file buf) := by
  unfold write_wtfile at h
  by_cases hp : pathExists fs (joinpath base file) = true
  · rw [if_pos hp] at h
    exact Except.noConfusion h
  · rw [if_neg hp] at h
    injection h with h
    exact ⟨by simpa using hp, h.symm⟩

/-- The lock half of add: when the stage of `git_worktree_add` runs with the
lock option and succeeds, the new admin directory holds an empty `locked`
marker in the final state, the marker was created before the checkout step,
and — whenever the final lookup resolved to the newly created admin
directory — the resulting worktree reads back as locked with empty reason. -/
theorem add_stage_lock (fsA : FS) (stepsA : List AddStep) (repo : Repo)
    (name worktree gitdir0 : String) (fuel : Nat) (r : AddResult)
    (hsteps : AddStep.checkoutHead ∉ stepsA)
    (h : git_worktree_add_stage fsA stepsA repo name worktree gitdir0
      true fuel = .ok r) :
    lookupPath r.fs (joinpath r.privdir "locked") = some (.file "") ∧
    (∃ pre post, r.steps = pre ++ AddStep.createLockFile :: post ∧
      AddStep.checkoutHead ∈ post ∧ AddStep.checkoutHead ∉ pre) ∧
    (r.wt.gitdir_path = r.privdir →
      git_worktree__is_locked r.fs r.wt = (true, "")) := by
  unfold git_worktree_add_stage at h
  cases hloop : worktree_name_loop fsA gitdir0 (basename worktree) 1 fuel with
  | none =>
    rw [hloop] at h
    exact Except.noConfusion h
  | some privdir =>
  rw [hloop] at h
  dsimp only at h
  by_cases h1 : pathExists fsA privdir = true
  · rw [if_pos h1] at h
    exact Except.noConfusion h
  rw [if_neg h1] at h
  by_cases h2 : pathExists (setPath fsA privdir FsEntry.dir) worktree = true
  · rw [if_pos h2] at h
    exact Except.noConfusion h
  rw [if_neg h2] at h
  set fsL4 := setPath (setPath (setPath fsA privdir FsEntry.dir) worktree FsEntry.dir)
    (joinpath privdir "locked") (FsEntry.file "") with hfsL4
  cases hw1 : write_wtfile fsL4 worktree ".git" ("gitdir: " ++ privdir ++ "\n") with
  | error e =>
    rw [hw1] at h
    exact Except.noConfusion h
  | ok fs5 =>
  rw [hw1] at h
  dsimp only at h
  obtain ⟨hw1a, hw1b⟩ := write_wtfile_ok _ _ _ _ _ hw1
  cases hw2 : write_wtfile fs5 privdir "commondir" (repo.commondir ++ "\n") with
  | error e =>
    rw [hw2] at h
    exact Except.noConfusion h
  | ok fs6 =>
  rw [hw2] at h
  dsimp only at h
  obtain ⟨hw2a, hw2b⟩ := write_wtfile_ok _ _ _ _ _ hw2
  cases hw3 : write_wtfile fs6 privdir "gitdir" (joinpath worktree ".git" ++ "\n") with
  | error e =>
    rw [hw3] at h
    exact Except.noConfusion h
  | ok fs7 =>
  rw [hw3] at h
  dsimp only at h
  obtain ⟨hw3a, hw3b⟩ := write_wtfile_ok _ _ _ _ _ hw3
  cases hlk : git_worktree_lookup (setPath fs7 (joinpath privdir "HEAD")
      (FsEntry.file ("ref: refs/heads/" ++ name ++ "\n"))) repo worktree 0 with
  | notFound =>
    rw [hlk] at h
    exact Except.noConfusion h
  | ioError code =>
    rw [hlk] at h
    exact Except.noConfusion h
  | nullSuccess =>
    rw [hlk] at h
    exact Except.noConfusion h
  | found wt =>
  rw [hlk] at h
  dsimp only at h
  injection h with h
  subst h
  have hL4 : lookupPath fsL4 (joinpath privdir "locked") = some (FsEntry.file "") := by
    rw [hfsL4]
    exact lookupPath_setPath_self _ _ _
  have hk1 : joinpath worktree ".git" ≠ joinpath privdir "locked" := by
    intro hc
    rw [hc] at hw1a
    simp [pathExists, hL4] at hw1a
  have hfs5L : lookupPath fs5 (joinpath privdir "locked") = some (FsEntry.file "") := by
    rw [hw1b, lookupPath_setPath_ne _ _ _ _ (Ne.symm hk1)]
    exact hL4
  have hk2 : joinpath privdir "commondir" ≠ joinpath privdir "locked" :=
    joinpath_ne_of_ne privdir (by decide)
  have hfs6L : lookupPath fs6 (joinpath privdir "locked") = some (FsEntry.file "") := by
    rw [hw2b, lookupPath_setPath_ne _ _ _ _ (Ne.symm hk2)]
    exact hfs5L
  have hk3 : joinpath privdir "gitdir" ≠ joinpath privdir "locked" :=
    joinpath_ne_of_ne privdir (by decide)
  have hfs7L : lookupPath fs7 (joinpath privdir "locked") = some (FsEntry.file "") := by
    rw [hw3b, lookupPath_setPath_ne _ _ _ _ (Ne.symm hk3)]
    exact hfs6L
  have hkH : joinpath privdir "HEAD" ≠ joinpath privdir "locked" :=
    joinpath_ne_of_ne privdir (by decide)
  have hfs8L : lookupPath (setPath fs7 (joinpath privdir "HEAD")
      (FsEntry.file ("ref: refs/heads/" ++ name ++ "\n")))
      (joinpath privdir "locked") = some (FsEntry.file "") := by
    rw [lookupPath_setPath_ne _ _ _ _ (Ne.symm hkH)]
    exact hfs7L
  refine ⟨hfs8L, ?_, ?_⟩
  · refine ⟨stepsA ++ [AddStep.mkAdminDir, AddStep.mkWorkdir],
      [AddStep.writeGitFile, AddStep.writeCommondirFile, AddStep.writeGitdirFile,
       AddStep.createHead, AddStep.checkoutHead, AddStep.finalLookup], ?_, ?_, ?_⟩
    · dsimp only
      simp [List.append_assoc]
    · simp
    · simp [hsteps]
  · intro hgd
    dsimp only at hgd
    simp [git_worktree__is_locked, hgd, pathExists, readFile, hfs8L]

/-- C8 (amended): a successful `add` with the lock option leaves an empty
`locked` marker in the newly created admin directory, created before the
checkout step populates the working tree; whenever the final lookup resolves
to that admin directory, the returned worktree's is_locked is true with an
empty reason.  (The returned worktree can be a different, earlier-enumerated
worktree whose target shares the requested basename — see the
counterexample.) -/
theorem C8_add_lock_amended (fs : FS) (repo : Repo) (name worktree : String)
    (fuel : Nat) (r : AddResult)
    (h : git_worktree_add fs repo name worktree { lock := true } fuel = .ok r) :
    lookupPath r.fs (joinpath r.privdir "locked") = some (.file "") ∧
    (∃ pre post, r.steps = pre ++ AddStep.createLockFile :: post ∧
      AddStep.checkoutHead ∈ post ∧ AddStep.checkoutHead ∉ pre) ∧
    (r.wt.gitdir_path = r.privdir →
      git_worktree__is_locked r.fs r.wt = (true, "")) := by
  unfold git_worktree_add at h
  dsimp only at h
  by_cases hg : pathExists fs (joinpath repo.commondir "worktrees") = true
  · rw [if_neg (by simp [hg])] at h
    exact add_stage_lock _ _ _ _ _ _ _ _ (by simp) h
  · rw [if_pos hg] at h
    exact add_stage_lock _ _ _ _ _ _ _ _ (by simp) h

/-- Counterexample to C8 as stated: on a registry already holding a worktree
whose target directory basename equals the new target's basename, `add` with
the lock option succeeds and creates the empty `locked` marker in the new
admin directory — but the final lookup matches the earlier-enumerated
existing worktree, so the returned worktree's is_locked is false. -/
theorem C8_counterexample :
    (git_worktree_add fsL repoL "n2" "/b/wt" { lock := true } 300).toOption.map
      (fun r => ((git_worktree__is_locked r.fs r.wt).1,
        lookupPath r.fs (joinpath r.privdir "locked"))) =
      some (false, some (.file "")) := by
  decide

/-- Witness for the amended C8 at a concrete successful locked add. -/
theorem C8_add_lock_amended_witness :
    lookupPath rC8fix.fs (joinpath rC8fix.privdir "locked") = some (.file "") ∧
    (∃ pre post, rC8fix.steps = pre ++ AddStep.createLockFile :: post ∧
      AddStep.checkoutHead ∈ post ∧ AddStep.checkoutHead ∉ pre) ∧
    (rC8fix.wt.gitdir_path = rC8fix.privdir →
      git_worktree__is_locked rC8fix.fs rC8fix.wt = (true, "")) :=
  C8_add_lock_amended fsW8 repoL "n1" "/b/neww" 300 rC8fix (by decide)

end WorktreeSpec
